import Mathlib

/-!
Verification of the client-side resilience layer of vscode-acmoj:
the TTL cache with stale fallback (src/cache.ts), the retrying request
executor (src/api.ts), and the submission polling monitor
(src/submissionMonitor.ts), shallowly embedded in Lean.

JavaScript strings used as cache keys are modelled as lists of
characters, so that key construction by template literals is list
append and String.prototype.startsWith is List.isPrefixOf.  Timestamps
(Date.now()) are natural numbers of milliseconds and are passed
explicitly to every operation that reads the clock.  The JS Map is
modelled as an association list whose update operation replaces the
entry for an existing key; no specified behaviour depends on the
iteration order of the cache map.
-/

/-- A JS string used as a cache key. -/
abbrev CacheKey := List Char

/-- Entry stored in CacheService.cache (cache.ts, interface CacheEntry):
`data`, absolute expiry `expires`, and the optional `staleUntil`
timestamp after which the entry may no longer serve as fallback. -/
structure CacheEntry (V : Type) where
  data : V
  expires : Nat
  staleUntil : Option Nat
  deriving DecidableEq, Repr

/-- State of a CacheService instance (cache.ts): the key→entry map,
the default TTL in milliseconds and the stale grace period. -/
structure CacheService (V : Type) where
  cache : List (CacheKey × CacheEntry V)
  defaultTTL : Nat
  stalePeriod : Nat
  deriving DecidableEq, Repr

/-- Lookup in the modelled JS Map. -/
def lookupKey {V : Type} (k : CacheKey) : List (CacheKey × CacheEntry V) → Option (CacheEntry V)
  | [] => none
  | (k', e) :: rest => if k' = k then some e else lookupKey k rest

/-- Removal of a key from the modelled JS Map (Map.delete). -/
def eraseKey {V : Type} (k : CacheKey) (l : List (CacheKey × CacheEntry V)) :
    List (CacheKey × CacheEntry V) :=
  l.filter (fun p => p.1 ≠ k)

/-- `new CacheService(defaultTTLInMinutes)` (cache.ts constructor):
empty map, default TTL in ms, fixed 30-minute stale period. -/
def CacheService.make (V : Type) (defaultTTLInMinutes : Nat) : CacheService V :=
  { cache := [], defaultTTL := defaultTTLInMinutes * 60 * 1000, stalePeriod := 30 * 60 * 1000 }

/-- `cache.get(key)` (cache.ts lines 25-39).  Returns the value while
`now <= expires`; when the entry is past `expires` it returns
undefined, additionally deleting the entry if it is also past a
truthy `staleUntil` (JS: `entry.staleUntil && now > entry.staleUntil`,
where a zero `staleUntil` is falsy). -/
def CacheService.get {V : Type} (c : CacheService V) (key : CacheKey) (now : Nat) :
    Option V × CacheService V :=
  match lookupKey key c.cache with
  | none => (none, c)
  | some e =>
    if e.expires < now then
      match e.staleUntil with
      | some su =>
        if su ≠ 0 ∧ su < now then (none, { c with cache := eraseKey key c.cache }) else (none, c)
      | none => (none, c)
    else (some e.data, c)

/-- Resolution of the optional `ttlMinutes` argument of `set`
(cache.ts line 45): `ttlMinutes ? ttlMinutes * 60 * 1000 :
this.defaultTTL`, where a zero argument is falsy in JS and therefore
also falls back to the default TTL. -/
def CacheService.resolveTTL {V : Type} (c : CacheService V) (ttlMinutes : Option Nat) : Nat :=
  match ttlMinutes with
  | some m => if m = 0 then c.defaultTTL else m * 60 * 1000
  | none => c.defaultTTL

/-- `cache.set(key, data, ttlMinutes?)` (cache.ts lines 44-52). -/
def CacheService.set {V : Type} (c : CacheService V) (key : CacheKey) (data : V)
    (ttlMinutes : Option Nat) (now : Nat) : CacheService V :=
  let expires := now + c.resolveTTL ttlMinutes
  { c with cache := (key, ⟨data, expires, some (expires + c.stalePeriod)⟩) :: eraseKey key c.cache }

/-- `cache.delete(key)` (cache.ts lines 57-59). -/
def CacheService.delete {V : Type} (c : CacheService V) (key : CacheKey) : CacheService V :=
  { c with cache := eraseKey key c.cache }

/-- `cache.clear()` (cache.ts lines 64-66). -/
def CacheService.clear {V : Type} (c : CacheService V) : CacheService V :=
  { c with cache := [] }

/-- `cleanExpiredEntries()` (cache.ts lines 71-79): the periodic sweep
removing every entry with a truthy `staleUntil` in the past. -/
def CacheService.cleanExpiredEntries {V : Type} (c : CacheService V) (now : Nat) : CacheService V :=
  { c with cache := c.cache.filter (fun p =>
      match p.2.staleUntil with
      | some su => ¬(su ≠ 0 ∧ su < now)
      | none => true) }

/-- `getStaleEntry(key)` (cache.ts lines 116-127): the value of an
entry that is expired but still within a truthy stale period. -/
def CacheService.getStaleEntry {V : Type} (c : CacheService V) (key : CacheKey) (now : Nat) :
    Option V :=
  match lookupKey key c.cache with
  | none => none
  | some e =>
    match e.staleUntil with
    | some su => if e.expires < now ∧ su ≠ 0 ∧ now ≤ su then some e.data else none
    | none => none

/-- `getOrFetch(key, fetchFn, ttlMinutes?)` (cache.ts lines 84-111).
The awaited outcome of `fetchFn()` is passed as an `Except` value; the
function returns the delivered result together with the new cache
state.  The fallback is guarded by `if (staleEntry)` (cache.ts line
103), a JS truthiness test on the cached data itself — not merely a
definedness test — so a falsy cached value (empty string, zero, false)
is never served as stale fallback; `truthy` is the truthiness of
values of type `V`. -/
def CacheService.getOrFetch {V ε : Type} (c : CacheService V) (key : CacheKey)
    (truthy : V → Bool) (fetchResult : Except ε V) (ttlMinutes : Option Nat) (now : Nat) :
    Except ε V × CacheService V :=
  match c.get key now with
  | (some v, c1) => (Except.ok v, c1)
  | (none, c1) =>
    match fetchResult with
    | Except.ok d => (Except.ok d, c1.set key d ttlMinutes now)
    | Except.error e =>
      match c1.getStaleEntry key now with
      | some v => if truthy v then (Except.ok v, c1) else (Except.error e, c1)
      | none => (Except.error e, c1)

/-- `deleteWithPrefix(prefix)` (cache.ts lines 132-138): removes the
entries whose key starts with the given string. -/
def CacheService.deletePrefixed {V : Type} (c : CacheService V) (pre : CacheKey) :
    CacheService V :=
  { c with cache := c.cache.filter (fun p => !(pre.isPrefixOf p.1)) }

-- Sanity checks on a concrete scenario (spec section 8 example, scaled).
example :
    ((CacheService.make Nat 5).set [] 7 none 0).cache
      = [([], ⟨7, 300000, some 2100000⟩)] := rfl

example : (((CacheService.make Nat 5).set [] 7 none 0).get [] 240000).1 = some 7 := rfl

example : (((CacheService.make Nat 5).set [] 7 none 0).get [] 360000).1 = none := rfl

example :
    (((CacheService.make Nat 5).set [] 7 none 0).getOrFetch [] (fun n => n != 0)
      (Except.error "down") none 360000).1 = Except.ok 7 := rfl

example :
    (((CacheService.make Nat 5).set [] 7 none 0).getOrFetch [] (fun n => n != 0)
      (Except.error "down") none 2400000).1 = Except.error "down" := rfl

/-!
Request executor (api.ts).  An axios outcome is either a decoded
payload or an `AxiosError` carrying the optional HTTP status of the
response, the optional `response.data.message`, the error message and
the truthiness of `error.config`.  The response interceptor
(api.ts lines 67-101) maps a failed outcome to the plain `Error` that
the caller of the axios instance actually observes — crucially, those
plain errors carry no `response` field, which the model records as
`responseStatus := none` — and reports whether it invoked
`authService.handleUnauthorizedError()`.
-/

/-- The error axios passes to the response interceptor. -/
structure AxiosError where
  message : String
  dataMessage : Option String
  responseStatus : Option Nat
  hasConfig : Bool
  deriving DecidableEq, Repr

/-- Outcome of one axios request before interception. -/
inductive AxiosResult (T : Type) where
  | ok : T → AxiosResult T
  | fail : AxiosError → AxiosResult T
  deriving DecidableEq, Repr

/-- An error as observed by callers of the axios instance: a JS
`Error` object, whose `response?.status` access the retry loop
performs is modelled by the `responseStatus` field (always `none` for
the plain `new Error(...)` objects the interceptor produces). -/
structure JsError where
  message : String
  responseStatus : Option Nat
  deriving DecidableEq, Repr

/-- Substring test embedding JS String.prototype.includes. -/
def hasSubstring (sub : List Char) : List Char → Bool
  | [] => sub.isEmpty
  | c :: rest => sub.isPrefixOf (c :: rest) || hasSubstring sub rest

/-- The interceptor's TLS/socket detection (api.ts lines 73-80):
`error.message && (includes 'socket' || 'TLS' || 'ECONNREFUSED' ||
'ENOTFOUND' || 'timeout')`. -/
def isNetworkIssue (msg : String) : Bool :=
  msg ≠ "" &&
    (hasSubstring "socket".data msg.data || hasSubstring "TLS".data msg.data ||
      hasSubstring "ECONNREFUSED".data msg.data || hasSubstring "ENOTFOUND".data msg.data ||
      hasSubstring "timeout".data msg.data)

/-- `error.response?.data?.message || error.message` (api.ts line 98). -/
def apiErrorMessage (e : AxiosError) : String :=
  match e.dataMessage with
  | some m => if m = "" then e.message else m
  | none => e.message

/-- The response interceptor (api.ts lines 67-101) applied to one
axios outcome.  Returns the result the awaiting caller observes and
the number of `handleUnauthorizedError()` invocations (0 or 1). -/
def interceptResponse {T : Type} (r : AxiosResult T) : Except JsError T × Nat :=
  match r with
  | AxiosResult.ok t => (Except.ok t, 0)
  | AxiosResult.fail e =>
    if isNetworkIssue e.message then
      (Except.error ⟨"Network connectivity issue: " ++ e.message ++
        ". Try checking your network connection or VPN settings.", none⟩, 0)
    else if e.responseStatus = some 401 ∧ e.hasConfig then
      (Except.error ⟨"Invalid or expired token. Please set a new one.", none⟩, 1)
    else
      (Except.error ⟨apiErrorMessage e, none⟩, 0)

/-- The non-retry test of `requestWithRetry` (api.ts lines 130-135):
`error.response?.status === 401 || (error.response?.status >= 400 &&
error.response?.status < 500)`; with `response` absent both numeric
comparisons are false in JS. -/
def isNonRetryable (e : JsError) : Bool :=
  e.responseStatus = some 401 ||
    (match e.responseStatus with
     | some s => decide (400 ≤ s) && decide (s < 500)
     | none => false)

/-- The `while (attempt < this.retryCount)` loop of `requestWithRetry`
(api.ts lines 105-152), structured on the remaining number of allowed
iterations (`fuel = retryCount - attempt`).  `fetch n` is the axios
outcome of the request issued on zero-based attempt `n`.  Returns the
overall outcome, the number of requests issued, and the total number
of `handleUnauthorizedError()` invocations. -/
def requestLoop {T : Type} (fetch : Nat → AxiosResult T) :
    Nat → Nat → Option JsError → Except JsError T × Nat × Nat
  | 0, _, lastError =>
    (Except.error (match lastError with
      | some e => e
      | none => ⟨"Request failed, please check your network connection", none⟩), 0, 0)
  | fuel + 1, attempt, _ =>
    match interceptResponse (fetch attempt) with
    | (Except.ok t, u) => (Except.ok t, 1, u)
    | (Except.error e, u) =>
      if isNonRetryable e then (Except.error e, 1, u)
      else
        match requestLoop fetch fuel (attempt + 1) (some e) with
        | (r, calls, u2) => (r, calls + 1, u + u2)

/-- `requestWithRetry` (api.ts lines 105-152) with the per-client
`retryCount`. -/
def requestWithRetry {T : Type} (retryCount : Nat) (fetch : Nat → AxiosResult T) :
    Except JsError T × Nat × Nat :=
  requestLoop fetch retryCount 0 none

-- Sanity: a success on the first attempt issues exactly one request.
example : requestWithRetry 3 (fun _ => AxiosResult.ok 42) = (Except.ok 42, 1, 0) := rfl

/-!
Submission monitor (submissionMonitor.ts).  The monitor owns a map
from submission id to the last observed status and reuses the
ApiClient's cache both for the per-id submission entries and for its
own per-id attempt counters.  Cached values are therefore modelled by
a small sum type: a submission (only its status field is ever
consulted), a number (the attempt counters), or an unrelated payload
(problem/problemset/profile entries).  A tick's network activity is
abstracted by a function giving, per submission id, the outcome of the
`getSubmissionDetails` fetch closure on that tick.
-/

/-- A value stored in the ApiClient cache. -/
inductive MVal where
  | sub : String → MVal
  | num : Nat → MVal
  | other : Nat → MVal
  deriving DecidableEq, Repr

/-- `submission.status` of a cached submission.  Non-submission values
are never stored under submission keys. -/
def MVal.statusOf : MVal → String
  | MVal.sub s => s
  | _ => ""

/-- JS truthiness of a cached value: submissions and the other
resource payloads are objects (always truthy); a stored number is
falsy exactly when it is zero. -/
def MVal.truthy : MVal → Bool
  | MVal.sub _ => true
  | MVal.num n => n != 0
  | MVal.other _ => true

/-- Cache key `submission:${submissionId}` (api.ts line 306). -/
def submissionKey (id : Nat) : CacheKey :=
  "submission:".data ++ (Nat.repr id).data

/-- Cache key `monitor_attempts_${submissionId}` (submissionMonitor.ts
line 199). -/
def monitorAttemptsKey (id : Nat) : CacheKey :=
  "monitor_attempts_".data ++ (Nat.repr id).data

/-- The `submissions:` key prefix used for list-view invalidation. -/
def submissionsListPrefix : CacheKey :=
  "submissions:".data

/-- `isTerminalStatus(status)` (submissionMonitor.ts lines 139-154). -/
def isTerminalStatus (status : String) : Bool :=
  (["Accepted", "Wrong Answer", "Time Limit Exceeded", "Memory Limit Exceeded",
    "Runtime Error", "Compilation Error", "System Error", "Canceled", "Aborted",
    "Judged", "Failed"]).contains status

/-- `getMonitoringAttempts(submissionId)` (submissionMonitor.ts lines
198-203): reads the counter (`Number(get(key) || 0)`, hence 0 on a
cache miss), stores the incremented counter with a 10-minute TTL, and
returns the value read. -/
def getMonitoringAttempts (c : CacheService MVal) (id : Nat) (now : Nat) :
    Nat × CacheService MVal :=
  let r := c.get (monitorAttemptsKey id) now
  let attempts := match r.1 with
    | some (MVal.num n) => n
    | _ => 0
  (attempts, r.2.set (monitorAttemptsKey id) (MVal.num (attempts + 1)) (some 10) now)

/-- State of the SubmissionMonitorService: the tracked map (insertion
order preserved) together with the ApiClient's cache it manipulates
and the configured attempt ceiling. -/
structure MonState where
  monitored : List (Nat × String)
  cache : CacheService MVal
  maxAttempts : Nat
  deriving DecidableEq, Repr

/-- The mutable locals of one `checkSubmissions` run: the evolving
cache, the `hasChanges` flag, the status updates written back into the
tracked map, the `submissionsToRemove` list, and the notifications
shown (as id, new-status pairs). -/
structure TickAcc where
  cache : CacheService MVal
  hasChanges : Bool
  newStatuses : List (Nat × String)
  toRemove : List Nat
  notifications : List (Nat × String)
  deriving DecidableEq, Repr

/-- The body of the `for` loop of `checkSubmissions`
(submissionMonitor.ts lines 79-120) for one tracked entry: delete the
per-id cache entry, re-fetch the detail through `getSubmissionDetails`
(api.ts lines 305-319, a `getOrFetch` with a 5-minute TTL), compare,
on mismatch record the update, notify and delete the `submissions:`
prefix, then mark for removal on terminal status or attempt ceiling.
A fetch failure is caught and leaves the entry untouched. -/
def tickOne (maxA : Nat) (now : Nat) (fetch : Nat → Except Unit String)
    (acc : TickAcc) (idStatus : Nat × String) : TickAcc :=
  let id := idStatus.1
  let lastStatus := idStatus.2
  let c1 := acc.cache.delete (submissionKey id)
  match c1.getOrFetch (submissionKey id) MVal.truthy ((fetch id).map MVal.sub) (some 5) now with
  | (Except.error _, c2) => { acc with cache := c2 }
  | (Except.ok v, c2) =>
    let currentStatus := v.statusOf
    let acc2 :=
      if lastStatus ≠ currentStatus then
        { acc with
          cache := c2.deletePrefixed submissionsListPrefix
          hasChanges := true
          newStatuses := acc.newStatuses ++ [(id, currentStatus)]
          notifications := acc.notifications ++ [(id, currentStatus)] }
      else { acc with cache := c2 }
    let acc3 :=
      if isTerminalStatus currentStatus then
        { acc2 with toRemove := acc2.toRemove ++ [id] }
      else acc2
    let r := getMonitoringAttempts acc3.cache id now
    let acc4 := { acc3 with cache := r.2 }
    if maxA ≤ r.1 then { acc4 with toRemove := acc4.toRemove ++ [id] } else acc4

/-- In-place `Map.set` updates performed during the loop, applied to
the tracked map (keys are unique; iteration visits the original
entries). -/
def applyStatusUpdates (mon : List (Nat × String)) (upd : List (Nat × String)) :
    List (Nat × String) :=
  mon.map (fun p =>
    match upd.lookup p.1 with
    | some s => (p.1, s)
    | none => p)

/-- `checkSubmissions()` (submissionMonitor.ts lines 70-134): one
monitor tick at time `now`.  Returns the new state, the notifications
shown this tick, and the `hasChanges` flag (which drives the final
`clearCache()` plus view refresh).  An empty tracked map stops the
timer and does nothing. -/
def checkSubmissions (st : MonState) (now : Nat) (fetch : Nat → Except Unit String) :
    MonState × List (Nat × String) × Bool :=
  if st.monitored.isEmpty then (st, [], false)
  else
    let acc := st.monitored.foldl (tickOne st.maxAttempts now fetch)
      { cache := st.cache, hasChanges := false, newStatuses := [],
        toRemove := [], notifications := [] }
    let mon1 := (applyStatusUpdates st.monitored acc.newStatuses).filter
      (fun p => ¬ acc.toRemove.contains p.1)
    let cache1 := if acc.hasChanges then acc.cache.clear else acc.cache
    ({ st with monitored := mon1, cache := cache1 }, acc.notifications, acc.hasChanges)

/-- `k` consecutive monitor ticks, tick `i` (zero-based) running at
time `times i` with per-id fetch outcomes `fetch i`.  Returns the
final state and all notifications shown, in order. -/
def runTicks (st : MonState) (times : Nat → Nat) (fetch : Nat → Nat → Except Unit String) :
    Nat → MonState × List (Nat × String)
  | 0 => (st, [])
  | k + 1 =>
    let r1 := runTicks st times fetch k
    let r2 := checkSubmissions r1.1 (times k) (fetch k)
    (r2.1, r1.2 ++ r2.2.1)

-- Sanity: key construction evaluates.
example : submissionKey 5 = "submission:5".data := by decide

-- Sanity: a Queued, Running, Accepted run over three ticks on a fresh
-- monitor notifies twice and retires the id at the terminal tick.
example :
    (runTicks ⟨[(7, "Queued")], CacheService.make MVal 15, 40⟩ (fun i => 3000 * i)
      (fun i _ => Except.ok (["Queued", "Running", "Accepted"].getD i "")) 3).1.monitored
      = [] := by decide

example :
    (runTicks ⟨[(7, "Queued")], CacheService.make MVal 15, 40⟩ (fun i => 3000 * i)
      (fun i _ => Except.ok (["Queued", "Running", "Accepted"].getD i "")) 3).2
      = [(7, "Running"), (7, "Accepted")] := by decide

example :
    (runTicks ⟨[(7, "Queued")], CacheService.make MVal 15, 40⟩ (fun i => 3000 * i)
      (fun i _ => Except.ok (["Queued", "Running", "Accepted"].getD i "")) 2).1.monitored
      = [(7, "Running")] := by decide

/-!
Basic lemmas about the association-list map model.
-/

theorem eraseKey_cons_self {V : Type} (k : CacheKey) (e : CacheEntry V)
    (l : List (CacheKey × CacheEntry V)) : eraseKey k ((k, e) :: l) = eraseKey k l := by
  simp [eraseKey, List.filter]

theorem eraseKey_cons_ne {V : Type} (k k' : CacheKey) (e : CacheEntry V)
    (l : List (CacheKey × CacheEntry V)) (h : k' ≠ k) :
    eraseKey k ((k', e) :: l) = (k', e) :: eraseKey k l := by
  simp [eraseKey, List.filter, h]

theorem lookupKey_eraseKey_self {V : Type} (k : CacheKey) (l : List (CacheKey × CacheEntry V)) :
    lookupKey k (eraseKey k l) = none := by
  induction l with
  | nil => rfl
  | cons p rest ih =>
    rcases p with ⟨k1, e⟩
    by_cases hp : k1 = k
    · subst hp
      rw [eraseKey_cons_self]
      exact ih
    · rw [eraseKey_cons_ne k k1 e rest hp]
      simpa [lookupKey, hp] using ih

theorem lookupKey_eraseKey_ne {V : Type} (k k' : CacheKey) (l : List (CacheKey × CacheEntry V))
    (h : k ≠ k') : lookupKey k (eraseKey k' l) = lookupKey k l := by
  induction l with
  | nil => rfl
  | cons p rest ih =>
    rcases p with ⟨k1, e⟩
    by_cases hp : k1 = k'
    · subst hp
      rw [eraseKey_cons_self, ih]
      simp [lookupKey, (Ne.symm h)]
    · rw [eraseKey_cons_ne k' k1 e rest hp]
      by_cases hk : k1 = k
      · simp [lookupKey, hk]
      · simp [lookupKey, hk, ih]

theorem eraseKey_of_lookup_none {V : Type} (k : CacheKey) (l : List (CacheKey × CacheEntry V))
    (h : lookupKey k l = none) : eraseKey k l = l := by
  induction l with
  | nil => rfl
  | cons p rest ih =>
    rcases p with ⟨k1, e⟩
    by_cases hp : k1 = k
    · simp [lookupKey, hp] at h
    · rw [eraseKey_cons_ne k k1 e rest hp, ih]
      simpa [lookupKey, hp] using h

theorem eraseKey_eraseKey {V : Type} (k : CacheKey) (l : List (CacheKey × CacheEntry V)) :
    eraseKey k (eraseKey k l) = eraseKey k l :=
  eraseKey_of_lookup_none k _ (lookupKey_eraseKey_self k l)



/-- Entries kept by the `deleteWithPrefix` filter are looked up as
before; entries whose key starts with the prefix are gone. -/
theorem lookupKey_filter_not_isPrefixOf {V : Type} (pre k : CacheKey)
    (l : List (CacheKey × CacheEntry V)) :
    lookupKey k (l.filter fun p => !(pre.isPrefixOf p.1))
      = if pre.isPrefixOf k then none else lookupKey k l := by
  induction l with
  | nil => cases h : pre.isPrefixOf k <;> simp [lookupKey, h]
  | cons p rest ih =>
    rcases p with ⟨k1, e⟩
    rw [List.filter_cons]
    by_cases hk : k1 = k
    · subst hk
      cases h : pre.isPrefixOf k1 <;> simp [h, lookupKey, ih]
    · cases h : pre.isPrefixOf k1 <;> simp [h, lookupKey, hk, ih]

/-- C5 (amended): `get(k)` returns a value iff an entry for k exists
and `now <= expiresAt(k)` (inclusive at the expiry instant, because
the code tests `now > entry.expires`); in all other cases it returns
undefined.  `get` is a total function of the state and the clock and
therefore never throws. -/
theorem C5_freshness_amended {V : Type} (c : CacheService V) (k : CacheKey) (now : Nat) (v : V) :
    (c.get k now).1 = some v ↔
      ∃ e, lookupKey k c.cache = some e ∧ now ≤ e.expires ∧ e.data = v := by
  constructor
  · intro hv
    unfold CacheService.get at hv
    cases hl : lookupKey k c.cache with
    | none => rw [hl] at hv; cases hv
    | some e =>
      rw [hl] at hv
      dsimp only at hv
      by_cases hx : e.expires < now
      · rw [if_pos hx] at hv
        cases hsu : e.staleUntil with
        | none => rw [hsu] at hv; cases hv
        | some su =>
          rw [hsu] at hv
          dsimp only at hv
          by_cases hd : su ≠ 0 ∧ su < now
          · rw [if_pos hd] at hv; cases hv
          · rw [if_neg hd] at hv; cases hv
      · rw [if_neg hx] at hv
        exact ⟨e, rfl, by omega, by injection hv⟩
  · rintro ⟨e, hl, hle, hd⟩
    unfold CacheService.get
    rw [hl]
    dsimp only
    rw [if_neg (by omega : ¬ e.expires < now), hd]

/-- C5 counterexample: at the instant `now = expiresAt(k)` the code
still returns the cached value, so "a value iff now < expiresAt"
fails (TTL 5 min, entry set at t = 0, read at t = 300000). -/
theorem C5_freshness_cex :
    ¬ (((((CacheService.make Nat 5).set ['k'] 7 none 0).get ['k'] 300000).1).isSome = true
        ↔ 300000 < 300000) := by
  decide

/-- C4 counterexample: a reachable stale entry holding the falsy
value "" (e.g. the cached code of an empty submission file, set at
t = 0 with TTL 5 min, fetch failing at t = 360000 inside the stale
window 300000..2100000): the code rethrows the fetch error instead of
returning the previously cached value, because `if (staleEntry)`
tests the data's truthiness. -/
theorem C4_stale_fallback_cex :
    lookupKey ['k'] ((CacheService.make String 5).set ['k'] "" none 0).cache
        = some ⟨"", 300000, some 2100000⟩
    ∧ (300000 ≤ 360000 ∧ 360000 < 2100000)
    ∧ (((CacheService.make String 5).set ['k'] "" none 0).getOrFetch ['k']
        (fun s => s != "") (Except.error "down") none 360000).1 = Except.error "down" :=
  ⟨rfl, by decide, rfl⟩

/-- C4 (amended): (a) whenever the entry for k satisfies
`expiresAt(k) <= now < staleUntil(k)`, its cached data is truthy, and
the fetch fails, `getOrFetch` delivers the previously cached value
instead of raising; (b) when `getOrFetch` does raise, the fetch failed
and the entry for k (if any) is not fresh, and is either outside the
stale window or holds falsy data. -/
theorem C4_stale_fallback_amended :
    (∀ (V ε : Type) (truthy : V → Bool) (c : CacheService V) (k : CacheKey) (now : Nat)
        (e : CacheEntry V) (su : Nat) (err : ε) (ttl : Option Nat),
        lookupKey k c.cache = some e → e.staleUntil = some su →
        e.expires ≤ now → now < su → truthy e.data = true →
        (c.getOrFetch k truthy (Except.error err) ttl now).1 = Except.ok e.data)
    ∧ (∀ (V ε : Type) (truthy : V → Bool) (c : CacheService V) (k : CacheKey) (now : Nat)
        (err e' : ε) (ttl : Option Nat),
        (c.getOrFetch k truthy (Except.error err) ttl now).1 = Except.error e' →
        e' = err ∧ ∀ en, lookupKey k c.cache = some en →
          en.expires < now ∧ ∀ su, en.staleUntil = some su →
            su ≤ now ∨ truthy en.data = false) := by
  constructor
  · intro V ε truthy c k now e su err ttl hl hsu hexp hnow htr
    unfold CacheService.getOrFetch CacheService.get CacheService.getStaleEntry
    rw [hl]
    dsimp only
    by_cases hx : e.expires < now
    · rw [if_pos hx, hsu]
      dsimp only
      rw [if_neg (by omega : ¬ (su ≠ 0 ∧ su < now))]
      dsimp only
      rw [hl]
      dsimp only
      rw [hsu]
      dsimp only
      rw [if_pos (by omega : e.expires < now ∧ su ≠ 0 ∧ now ≤ su)]
      dsimp only
      rw [if_pos htr]
    · rw [if_neg hx]
  · intro V ε truthy c k now err e' ttl hres
    unfold CacheService.getOrFetch CacheService.get CacheService.getStaleEntry at hres
    cases hl : lookupKey k c.cache with
    | none =>
      rw [hl] at hres
      dsimp only at hres
      rw [hl] at hres
      dsimp only at hres
      injection hres with h1
      exact ⟨h1.symm, fun en hen => by cases hen⟩
    | some e =>
      rw [hl] at hres
      dsimp only at hres
      by_cases hx : e.expires < now
      · rw [if_pos hx] at hres
        cases hsu : e.staleUntil with
        | none =>
          rw [hsu] at hres
          dsimp only at hres
          rw [hl] at hres
          dsimp only at hres
          rw [hsu] at hres
          dsimp only at hres
          injection hres with h1
          refine ⟨h1.symm, fun en hen => ?_⟩
          injection hen with hen
          subst hen
          exact ⟨hx, fun su h => by rw [hsu] at h; cases h⟩
        | some su =>
          rw [hsu] at hres
          dsimp only at hres
          by_cases hd0 : su = 0
          · rw [if_neg (by omega : ¬ (su ≠ 0 ∧ su < now))] at hres
            dsimp only at hres
            rw [hl] at hres
            dsimp only at hres
            rw [hsu] at hres
            dsimp only at hres
            rw [if_neg (by omega : ¬ (e.expires < now ∧ su ≠ 0 ∧ now ≤ su))] at hres
            injection hres with h1
            refine ⟨h1.symm, fun en hen => ?_⟩
            injection hen with hen
            subst hen
            refine ⟨hx, fun su' h => ?_⟩
            rw [hsu] at h
            injection h with h
            exact Or.inl (by omega)
          · by_cases hlt : su < now
            · rw [if_pos (⟨hd0, hlt⟩ : su ≠ 0 ∧ su < now)] at hres
              dsimp only at hres
              rw [lookupKey_eraseKey_self] at hres
              dsimp only at hres
              injection hres with h1
              refine ⟨h1.symm, fun en hen => ?_⟩
              injection hen with hen
              subst hen
              refine ⟨hx, fun su' h => ?_⟩
              rw [hsu] at h
              injection h with h
              exact Or.inl (by omega)
            · rw [if_neg (by omega : ¬ (su ≠ 0 ∧ su < now))] at hres
              dsimp only at hres
              rw [hl] at hres
              dsimp only at hres
              rw [hsu] at hres
              dsimp only at hres
              rw [if_pos (by omega : e.expires < now ∧ su ≠ 0 ∧ now ≤ su)] at hres
              dsimp only at hres
              cases htr : truthy e.data with
              | true =>
                rw [if_pos htr] at hres
                cases hres
              | false =>
                rw [if_neg (by simp [htr] : ¬ truthy e.data = true)] at hres
                injection hres with h1
                refine ⟨h1.symm, fun en hen => ?_⟩
                injection hen with hen
                subst hen
                exact ⟨hx, fun su' h => Or.inr htr⟩
      · rw [if_neg hx] at hres
        cases hres

/-- C4 witness: TTL 5 min, truthy entry value 7 set at t = 0, failing
fetch at t = 360000 (expired at 300000, stale until 2100000) returns
the stale value 7. -/
theorem C4_stale_fallback_amended_witness :
    (((CacheService.make Nat 5).set ['k'] 7 none 0).getOrFetch ['k'] (fun n => n != 0)
        (Except.error "down") none 360000).1 = Except.ok 7 :=
  C4_stale_fallback_amended.1 Nat String (fun n => n != 0) _ ['k'] 360000
    ⟨7, 300000, some 2100000⟩ 2100000 "down" none (by decide) rfl (by decide) (by decide)
    (by decide)

/-- C7: `deleteWithPrefix(p)` removes exactly the entries whose key
starts with p and leaves every other entry unchanged; in particular a
`submissions:` prefix delete never touches a `submission:<id>` key,
whatever the id text. -/
theorem C7_prefix_invalidation :
    (∀ (V : Type) (c : CacheService V) (pre k : CacheKey),
        lookupKey k (c.deletePrefixed pre).cache
          = if pre.isPrefixOf k then none else lookupKey k c.cache)
    ∧ (∀ (V : Type) (c : CacheService V) (idStr : List Char),
        lookupKey ("submission:".data ++ idStr)
            (c.deletePrefixed "submissions:".data).cache
          = lookupKey ("submission:".data ++ idStr) c.cache) := by
  constructor
  · intro V c pre k
    exact lookupKey_filter_not_isPrefixOf pre k c.cache
  · intro V c idStr
    unfold CacheService.deletePrefixed
    dsimp only
    rw [lookupKey_filter_not_isPrefixOf]
    have h : List.isPrefixOf "submissions:".data ("submission:".data ++ idStr) = false := by
      simp [List.isPrefixOf]
    rw [h]
    simp

/-- States a CacheService instance can be in: constructed empty, then
transformed by the public operations and the sweep. -/
inductive CacheReachable {V : Type} : CacheService V → Prop where
  | init : ∀ m, CacheReachable (CacheService.make V m)
  | getStep : ∀ c k now, CacheReachable c → CacheReachable ((CacheService.get c k now).2)
  | setStep : ∀ c k v ttl now, CacheReachable c → CacheReachable (CacheService.set c k v ttl now)
  | deleteStep : ∀ c k, CacheReachable c → CacheReachable (CacheService.delete c k)
  | clearStep : ∀ c, CacheReachable c → CacheReachable (CacheService.clear c)
  | sweepStep : ∀ c now, CacheReachable c → CacheReachable (CacheService.cleanExpiredEntries c now)
  | dpStep : ∀ c pre, CacheReachable c → CacheReachable (CacheService.deletePrefixed c pre)
  | fetchStep : ∀ (ε : Type) c k (truthy : V → Bool) (r : Except ε V) ttl now,
      CacheReachable c → CacheReachable ((CacheService.getOrFetch c k truthy r ttl now).2)

/-- Membership is preserved by key removal. -/
theorem mem_of_mem_eraseKey {V : Type} {p : CacheKey × CacheEntry V} {k : CacheKey}
    {l : List (CacheKey × CacheEntry V)} (h : p ∈ eraseKey k l) : p ∈ l :=
  (List.mem_filter.mp h).1

/-- `get` never changes the configured TTL and stale period. -/
theorem get_stalePeriod {V : Type} (c : CacheService V) (k : CacheKey) (now : Nat) :
    ((CacheService.get c k now).2).stalePeriod = c.stalePeriod := by
  unfold CacheService.get
  cases lookupKey k c.cache with
  | none => rfl
  | some e =>
    dsimp only
    by_cases hx : e.expires < now
    · rw [if_pos hx]
      cases e.staleUntil with
      | none => rfl
      | some su =>
        dsimp only
        by_cases hd : su ≠ 0 ∧ su < now
        · rw [if_pos hd]
        · rw [if_neg hd]
    · rw [if_neg hx]

/-- The state left behind by `get` has no entries beyond the input
state's. -/
theorem mem_get_state {V : Type} {p : CacheKey × CacheEntry V} (c : CacheService V)
    (k : CacheKey) (now : Nat) (h : p ∈ ((CacheService.get c k now).2).cache) : p ∈ c.cache := by
  unfold CacheService.get at h
  cases hl : lookupKey k c.cache with
  | none => rw [hl] at h; exact h
  | some e =>
    rw [hl] at h
    dsimp only at h
    by_cases hx : e.expires < now
    · rw [if_pos hx] at h
      cases hsu : e.staleUntil with
      | none => rw [hsu] at h; exact h
      | some su =>
        rw [hsu] at h
        dsimp only at h
        by_cases hd : su ≠ 0 ∧ su < now
        · rw [if_pos hd] at h
          exact mem_of_mem_eraseKey h
        · rw [if_neg hd] at h; exact h
    · rw [if_neg hx] at h; exact h

/-- The entry written by `set` and the invariant it carries. -/
theorem mem_set_state {V : Type} {p : CacheKey × CacheEntry V} (c : CacheService V)
    (k : CacheKey) (v : V) (ttl : Option Nat) (now : Nat)
    (h : p ∈ (CacheService.set c k v ttl now).cache) :
    p ∈ c.cache ∨ p.2.staleUntil = some (p.2.expires + c.stalePeriod) := by
  unfold CacheService.set at h
  dsimp only at h
  rcases List.mem_cons.mp h with h1 | h2
  · subst h1; right; rfl
  · exact Or.inl (mem_of_mem_eraseKey h2)

/-- Every entry of every reachable cache state satisfies
`staleUntil = expires + stalePeriod`, hence `staleUntil >= expires`. -/
theorem reachable_staleUntil_ge_expires {V : Type} (c : CacheService V)
    (h : CacheReachable c) :
    ∀ p ∈ c.cache, ∀ su, p.2.staleUntil = some su → p.2.expires ≤ su := by
  induction h with
  | init m => intro p hp; cases hp
  | getStep c k now _ ih =>
    intro p hp su hsu
    exact ih p (mem_get_state c k now hp) su hsu
  | setStep c k v ttl now _ ih =>
    intro p hp su hsu
    rcases mem_set_state c k v ttl now hp with h1 | h2
    · exact ih p h1 su hsu
    · rw [h2] at hsu
      injection hsu with hsu
      omega
  | deleteStep c k _ ih =>
    intro p hp su hsu
    exact ih p (mem_of_mem_eraseKey hp) su hsu
  | clearStep c _ _ =>
    intro p hp; cases hp
  | sweepStep c now _ ih =>
    intro p hp su hsu
    exact ih p (List.mem_filter.mp hp).1 su hsu
  | dpStep c pre _ ih =>
    intro p hp su hsu
    exact ih p (List.mem_filter.mp hp).1 su hsu
  | fetchStep ε c k truthy r ttl now _ ih =>
    intro p hp su hsu
    unfold CacheService.getOrFetch at hp
    cases hg : CacheService.get c k now with
    | mk o c1 =>
      rw [hg] at hp
      have hc1 : ∀ q ∈ c1.cache, q ∈ c.cache := by
        intro q hq
        exact mem_get_state c k now (by rw [hg]; exact hq)
      cases o with
      | some v => exact ih p (hc1 p hp) su hsu
      | none =>
        cases r with
        | ok d =>
          dsimp only at hp
          rcases mem_set_state c1 k d ttl now hp with h1 | h2
          · exact ih p (hc1 p h1) su hsu
          · rw [h2] at hsu
            injection hsu with hsu
            have hsp : c1.stalePeriod = c.stalePeriod := by
              have hc : c1 = (CacheService.get c k now).2 := by rw [hg]
              rw [hc, get_stalePeriod]
            omega
        | error e =>
          dsimp only at hp
          have hm : (match c1.getStaleEntry k now with
              | some v => if truthy v then (Except.ok v, c1) else (Except.error e, c1)
              | none => (Except.error e, c1)).2 = c1 := by
            cases c1.getStaleEntry k now with
            | none => rfl
            | some v =>
              dsimp only
              split <;> rfl
          rw [hm] at hp
          exact ih p (hc1 p hp) su hsu

/-- C9: every entry created by `set` has `expiresAt = now + ttl` (the
ttl argument resolving to the configured default when omitted) and
`staleUntil = expiresAt + stalePeriod`; `set` overwrites any existing
entry for the key; and every entry of every reachable cache state
satisfies `staleUntil >= expiresAt`. -/
theorem C9_set_entry_invariants :
    (∀ (V : Type) (c : CacheService V) (k : CacheKey) (v : V) (ttl : Option Nat) (now : Nat),
        lookupKey k (CacheService.set c k v ttl now).cache
          = some ⟨v, now + c.resolveTTL ttl, some (now + c.resolveTTL ttl + c.stalePeriod)⟩)
    ∧ (∀ (V : Type) (c : CacheService V), c.resolveTTL none = c.defaultTTL)
    ∧ (∀ (V : Type) (c : CacheService V), CacheReachable c →
        ∀ p ∈ c.cache, ∀ su, p.2.staleUntil = some su → p.2.expires ≤ su) := by
  refine ⟨?_, ?_, ?_⟩
  · intro V c k v ttl now
    unfold CacheService.set
    simp [lookupKey]
  · intro V c
    rfl
  · intro V c h
    exact reachable_staleUntil_ge_expires c h

/-- C9 witness: a concrete `set` on a fresh 5-minute cache, and the
stale invariant at the resulting reachable state. -/
theorem C9_set_entry_invariants_witness :
    (lookupKey ['k'] (CacheService.set (CacheService.make Nat 5) ['k'] 7 none 100).cache
        = some ⟨7, 100 + (CacheService.make Nat 5).resolveTTL none,
            some (100 + (CacheService.make Nat 5).resolveTTL none
              + (CacheService.make Nat 5).stalePeriod)⟩)
    ∧ (∀ p ∈ (CacheService.set (CacheService.make Nat 5) ['k'] 7 none 100).cache,
        ∀ su, p.2.staleUntil = some su → p.2.expires ≤ su) :=
  ⟨C9_set_entry_invariants.1 Nat (CacheService.make Nat 5) ['k'] 7 none 100,
   C9_set_entry_invariants.2.2 Nat _
     (CacheReachable.setStep _ ['k'] 7 none 100 (CacheReachable.init 5))⟩

/-- C10 (implicit behaviour, confirmed): an explicit TTL argument of
zero is falsy in JS, so `set(key, value, 0)` behaves exactly like
`set(key, value)` with the default TTL, and the entry is still fresh
at the full default-TTL horizon rather than expiring immediately. -/
theorem C10_zero_ttl_falls_back :
    ∀ (V : Type) (c : CacheService V) (k : CacheKey) (v : V) (now : Nat),
      CacheService.set c k v (some 0) now = CacheService.set c k v none now
      ∧ ((CacheService.set c k v (some 0) now).get k (now + c.defaultTTL)).1 = some v := by
  intro V c k v now
  constructor
  · unfold CacheService.set CacheService.resolveTTL
    simp
  · unfold CacheService.set CacheService.get CacheService.resolveTTL
    simp [lookupKey]

/-- C1 (code bug): with `retryCount = 3`, a request failing 500 on
every attempt is issued exactly 3 times with the final error surfaced
— but a request failing 404 on every attempt is ALSO issued 3 times
with zero short-circuit, because the response interceptor rejects a
plain `Error` without a `response` field, so the 4xx test in
`requestWithRetry` (api.ts lines 130-135) can never fire.  The claim
(and the code's own comment) requires a single attempt for 4xx. -/
theorem C1_client_error_retried :
    @requestWithRetry Nat 3 (fun _ => AxiosResult.fail
        ⟨"Request failed with status code 500", some "Internal Server Error", some 500, true⟩)
      = (Except.error ⟨"Internal Server Error", none⟩, 3, 0)
    ∧ @requestWithRetry Nat 3 (fun _ => AxiosResult.fail
        ⟨"Request failed with status code 404", some "Not Found", some 404, true⟩)
      = (Except.error ⟨"Not Found", none⟩, 3, 0) :=
  ⟨rfl, rfl⟩

/-- C3 (code bug): with `retryCount = 3`, a request answered 401 on
every attempt is issued 3 times and `handleUnauthorizedError()` is
invoked 3 times (the middle component 3 is the request count, the last
the unauthorized-callback count), because the interceptor's plain
rethrown `Error` carries no `response` and the non-retry test in
`requestWithRetry` never fires.  The claim requires exactly one
request and exactly one callback per failing call. -/
theorem C3_unauthorized_per_attempt :
    @requestWithRetry Nat 3 (fun _ => AxiosResult.fail
        ⟨"Request failed with status code 401", none, some 401, true⟩)
      = (Except.error ⟨"Invalid or expired token. Please set a new one.", none⟩, 3, 3) :=
  rfl

/-- C8 (code bug): a tick that observes a status change performs the
limited `submissions:` prefix deletions during the loop, but then the
`hasChanges` branch (submissionMonitor.ts lines 127-133) calls
`apiClient.clearCache()`, which empties the whole cache — the cached
problem, problemset and profile entries present before the tick are
gone, where the claim says they remain. -/
theorem C8_change_tick_clears_unrelated :
    (checkSubmissions
        ⟨[(1, "Queued")],
          (((CacheService.make MVal 15).set "problem:2".data (MVal.other 1) (some 30) 0).set
              "problemset:3".data (MVal.other 2) (some 20) 0).set
            "user:profile".data (MVal.other 3) (some 15) 0, 40⟩
        3000 (fun _ => Except.ok "Running")).2.1 = [(1, "Running")]
    ∧ (checkSubmissions
        ⟨[(1, "Queued")],
          (((CacheService.make MVal 15).set "problem:2".data (MVal.other 1) (some 30) 0).set
              "problemset:3".data (MVal.other 2) (some 20) 0).set
            "user:profile".data (MVal.other 3) (some 15) 0, 40⟩
        3000 (fun _ => Except.ok "Running")).1.cache.cache = [] := by
  decide

/-!
Key-disjointness facts for the monitor's cache traffic: the per-id
submission key, the per-id attempts counter key and the `submissions:`
list prefix never collide, whatever the id digits.
-/

theorem attKey_ne_subKey (a b : Nat) : monitorAttemptsKey a ≠ submissionKey b := by
  intro h
  simp [monitorAttemptsKey, submissionKey, String.data] at h

theorem subKey_ne_attKey (a b : Nat) : submissionKey a ≠ monitorAttemptsKey b := by
  intro h
  simp [monitorAttemptsKey, submissionKey, String.data] at h

theorem subKey_not_listPrefixed (a : Nat) :
    submissionsListPrefix.isPrefixOf (submissionKey a) = false := by
  simp [submissionsListPrefix, submissionKey, List.isPrefixOf]

theorem attKey_not_listPrefixed (a : Nat) :
    submissionsListPrefix.isPrefixOf (monitorAttemptsKey a) = false := by
  simp [submissionsListPrefix, monitorAttemptsKey, List.isPrefixOf]

/-- `get` on an absent key is a no-op returning undefined. -/
theorem get_miss {V : Type} (c : CacheService V) (k : CacheKey) (now : Nat)
    (h : lookupKey k c.cache = none) : CacheService.get c k now = (none, c) := by
  unfold CacheService.get
  rw [h]

/-- `get` on a fresh entry returns its data without state change. -/
theorem get_fresh {V : Type} (c : CacheService V) (k : CacheKey) (now : Nat) (e : CacheEntry V)
    (h : lookupKey k c.cache = some e) (hx : ¬ e.expires < now) :
    CacheService.get c k now = (some e.data, c) := by
  unfold CacheService.get
  rw [h]
  dsimp only
  rw [if_neg hx]

/-- `getOrFetch` on an absent key with a successful fetch stores and
returns the fetched value. -/
theorem getOrFetch_miss {V ε : Type} (c : CacheService V) (k : CacheKey) (truthy : V → Bool)
    (v : V) (ttl : Option Nat) (now : Nat) (h : lookupKey k c.cache = none) :
    CacheService.getOrFetch c k truthy (Except.ok v : Except ε V) ttl now
      = (Except.ok v, c.set k v ttl now) := by
  unfold CacheService.getOrFetch
  rw [get_miss c k now h]

/-- Counter read on an absent attempts key: 0, then the counter is
stored as 1. -/
theorem getMonitoringAttempts_miss (c : CacheService MVal) (id now : Nat)
    (h : lookupKey (monitorAttemptsKey id) c.cache = none) :
    getMonitoringAttempts c id now
      = (0, c.set (monitorAttemptsKey id) (MVal.num 1) (some 10) now) := by
  unfold getMonitoringAttempts
  rw [get_miss c _ now h]

/-- Counter read on a fresh attempts entry holding k: k, then the
counter is stored as k+1. -/
theorem getMonitoringAttempts_fresh (c : CacheService MVal) (id now k exp : Nat)
    (st : Option Nat) (h : lookupKey (monitorAttemptsKey id) c.cache = some ⟨MVal.num k, exp, st⟩)
    (hx : ¬ exp < now) :
    getMonitoringAttempts c id now
      = (k, c.set (monitorAttemptsKey id) (MVal.num (k + 1)) (some 10) now) := by
  unfold getMonitoringAttempts
  rw [get_fresh c _ now _ h hx]

/-- The attempts-counter entry as written by the tick that brings the
counter to k, at time τ (stored with a 10-minute TTL). -/
def attEntry (id k τ sP : Nat) : CacheKey × CacheEntry MVal :=
  (monitorAttemptsKey id, ⟨MVal.num k, τ + 600000, some (τ + 600000 + sP)⟩)

/-- The per-id submission entry as re-fetched and stored by a tick at
time τ (5-minute TTL). -/
def subEntry (id : Nat) (s : String) (τ sP : Nat) : CacheKey × CacheEntry MVal :=
  (submissionKey id, ⟨MVal.sub s, τ + 300000, some (τ + 300000 + sP)⟩)

/-- A tick on a single tracked id whose re-fetched status equals the
recorded one (non-terminal) and whose attempts counter is absent from
the cache: no notification, no change flag, the counter is written as
1, and the id survives iff the attempt ceiling is positive. -/
theorem tick_nochange_attMiss (id mx now : Nat) (s : String) (c : CacheService MVal)
    (f : Nat → Except Unit String) (hf : f id = Except.ok s)
    (hterm : isTerminalStatus s = false)
    (hatt : lookupKey (monitorAttemptsKey id) c.cache = none) :
    checkSubmissions ⟨[(id, s)], c, mx⟩ now f
      = (⟨if mx = 0 then [] else [(id, s)],
          ⟨attEntry id 1 now c.stalePeriod :: subEntry id s now c.stalePeriod ::
            eraseKey (monitorAttemptsKey id) (eraseKey (submissionKey id) c.cache),
            c.defaultTTL, c.stalePeriod⟩, mx⟩, [], false) := by
  have h1 : lookupKey (submissionKey id) (CacheService.delete c (submissionKey id)).cache
      = none := lookupKey_eraseKey_self _ _
  have h2 : lookupKey (monitorAttemptsKey id)
      ((CacheService.delete c (submissionKey id)).set (submissionKey id) (MVal.sub s)
        (some 5) now).cache = none := by
    unfold CacheService.set CacheService.delete
    dsimp only
    simp only [lookupKey]
    rw [if_neg (subKey_ne_attKey id id),
      lookupKey_eraseKey_ne _ _ _ (attKey_ne_subKey id id),
      lookupKey_eraseKey_ne _ _ _ (attKey_ne_subKey id id)]
    exact hatt
  unfold checkSubmissions
  rw [if_neg (by simp : ¬ ([(id, s)] : List (Nat × String)).isEmpty = true)]
  dsimp only [List.foldl]
  unfold tickOne
  dsimp only
  rw [hf]
  dsimp only [Except.map]
  rw [getOrFetch_miss _ _ _ _ _ _ h1]
  dsimp only [MVal.statusOf]
  rw [if_neg (by simp : ¬ s ≠ s)]
  rw [if_neg (by simp [hterm] : ¬ isTerminalStatus s = true)]
  dsimp only
  rw [getMonitoringAttempts_miss _ _ _ h2]
  dsimp only
  by_cases hmx : mx = 0
  · subst hmx
    rw [if_pos (by omega : (0:Nat) ≤ 0)]
    simp [CacheService.set, CacheService.delete, applyStatusUpdates, List.lookup,
      attEntry, subEntry, CacheService.resolveTTL, eraseKey_eraseKey,
      eraseKey_cons_ne _ _ _ _ (subKey_ne_attKey id id)]
  · rw [if_neg (by omega : ¬ mx ≤ 0)]
    simp [CacheService.set, CacheService.delete, applyStatusUpdates, List.lookup,
      attEntry, subEntry, CacheService.resolveTTL, eraseKey_eraseKey, hmx,
      eraseKey_cons_ne _ _ _ _ (subKey_ne_attKey id id)]

/-- A steady tick: single tracked id, unchanged non-terminal status,
cache holding the previous tick's counter (value k, still fresh) and
submission entry on top of an unrelated remainder.  The counter
advances to k+1 and the id survives iff k is below the ceiling. -/
theorem tick_nochange_attFresh (id mx k now prevT dT sP : Nat) (s : String)
    (rest : List (CacheKey × CacheEntry MVal))
    (f : Nat → Except Unit String) (hf : f id = Except.ok s)
    (hterm : isTerminalStatus s = false)
    (hsub : lookupKey (submissionKey id) rest = none)
    (hatt : lookupKey (monitorAttemptsKey id) rest = none)
    (hfresh : now ≤ prevT + 600000) :
    checkSubmissions
        ⟨[(id, s)], ⟨attEntry id k prevT sP :: subEntry id s prevT sP :: rest, dT, sP⟩, mx⟩ now f
      = (⟨if mx ≤ k then [] else [(id, s)],
          ⟨attEntry id (k + 1) now sP :: subEntry id s now sP :: rest, dT, sP⟩, mx⟩,
         [], false) := by
  have hdel : CacheService.delete
        ⟨attEntry id k prevT sP :: subEntry id s prevT sP :: rest, dT, sP⟩ (submissionKey id)
      = ⟨attEntry id k prevT sP :: rest, dT, sP⟩ := by
    unfold CacheService.delete
    dsimp only
    simp only [attEntry, subEntry]
    rw [eraseKey_cons_ne _ _ _ _ (attKey_ne_subKey id id)]
    rw [eraseKey_cons_self, eraseKey_of_lookup_none _ _ hsub]
  have h1 : lookupKey (submissionKey id)
      (CacheService.mk (attEntry id k prevT sP :: rest) dT sP).cache = none := by
    dsimp only
    simp [attEntry, lookupKey, attKey_ne_subKey id id, hsub]
  have hset : CacheService.set ⟨attEntry id k prevT sP :: rest, dT, sP⟩ (submissionKey id)
        (MVal.sub s) (some 5) now
      = ⟨subEntry id s now sP :: attEntry id k prevT sP :: rest, dT, sP⟩ := by
    unfold CacheService.set
    dsimp only
    simp only [attEntry, subEntry]
    rw [eraseKey_cons_ne _ _ _ _ (attKey_ne_subKey id id), eraseKey_of_lookup_none _ _ hsub]
    simp [CacheService.resolveTTL]
  have h2 : lookupKey (monitorAttemptsKey id)
      (CacheService.mk (subEntry id s now sP :: attEntry id k prevT sP :: rest) dT sP).cache
      = some ⟨MVal.num k, prevT + 600000, some (prevT + 600000 + sP)⟩ := by
    dsimp only
    simp [subEntry, attEntry, lookupKey, subKey_ne_attKey id id]
  have hset2 : CacheService.set
        ⟨subEntry id s now sP :: attEntry id k prevT sP :: rest, dT, sP⟩
        (monitorAttemptsKey id) (MVal.num (k + 1)) (some 10) now
      = ⟨attEntry id (k + 1) now sP :: subEntry id s now sP :: rest, dT, sP⟩ := by
    unfold CacheService.set
    dsimp only
    simp only [subEntry, attEntry]
    rw [eraseKey_cons_ne _ _ _ _ (subKey_ne_attKey id id), eraseKey_cons_self,
      eraseKey_of_lookup_none _ _ hatt]
    simp [CacheService.resolveTTL]
  unfold checkSubmissions
  rw [if_neg (by simp : ¬ ([(id, s)] : List (Nat × String)).isEmpty = true)]
  dsimp only [List.foldl]
  unfold tickOne
  dsimp only
  rw [hf]
  dsimp only [Except.map]
  rw [hdel, getOrFetch_miss _ _ _ _ _ _ h1, hset]
  dsimp only [MVal.statusOf]
  rw [if_neg (by simp : ¬ s ≠ s)]
  rw [if_neg (by simp [hterm] : ¬ isTerminalStatus s = true)]
  dsimp only
  rw [getMonitoringAttempts_fresh _ _ _ _ _ _ h2 (by omega), hset2]
  dsimp only
  by_cases hk : mx ≤ k
  · rw [if_pos hk, if_pos hk]
    simp [applyStatusUpdates, List.lookup]
  · rw [if_neg hk, if_neg hk]
    simp [applyStatusUpdates, List.lookup]

/-- A change tick: single tracked id, re-fetched status differs and is
non-terminal, previous counter (value k < ceiling) still fresh.  One
notification fires, the tracked status is updated, and the final
`hasChanges` branch clears the whole cache. -/
theorem tick_change_attFresh (id mx k now prevT dT sP : Nat) (last cur : String)
    (rest : List (CacheKey × CacheEntry MVal))
    (f : Nat → Except Unit String) (hf : f id = Except.ok cur)
    (hne : last ≠ cur)
    (hterm : isTerminalStatus cur = false)
    (hsub : lookupKey (submissionKey id) rest = none)
    (hfresh : now ≤ prevT + 600000)
    (hk : k < mx) :
    checkSubmissions
        ⟨[(id, last)], ⟨attEntry id k prevT sP :: subEntry id last prevT sP :: rest, dT, sP⟩,
          mx⟩ now f
      = (⟨[(id, cur)], ⟨[], dT, sP⟩, mx⟩, [(id, cur)], true) := by
  have hdel : CacheService.delete
        ⟨attEntry id k prevT sP :: subEntry id last prevT sP :: rest, dT, sP⟩ (submissionKey id)
      = ⟨attEntry id k prevT sP :: rest, dT, sP⟩ := by
    unfold CacheService.delete
    dsimp only
    simp only [attEntry, subEntry]
    rw [eraseKey_cons_ne _ _ _ _ (attKey_ne_subKey id id)]
    rw [eraseKey_cons_self, eraseKey_of_lookup_none _ _ hsub]
  have h1 : lookupKey (submissionKey id)
      (CacheService.mk (attEntry id k prevT sP :: rest) dT sP).cache = none := by
    dsimp only
    simp [attEntry, lookupKey, attKey_ne_subKey id id, hsub]
  have hset : CacheService.set ⟨attEntry id k prevT sP :: rest, dT, sP⟩ (submissionKey id)
        (MVal.sub cur) (some 5) now
      = ⟨subEntry id cur now sP :: attEntry id k prevT sP :: rest, dT, sP⟩ := by
    unfold CacheService.set
    dsimp only
    simp only [attEntry, subEntry]
    rw [eraseKey_cons_ne _ _ _ _ (attKey_ne_subKey id id), eraseKey_of_lookup_none _ _ hsub]
    simp [CacheService.resolveTTL]
  have hdp : CacheService.deletePrefixed
        ⟨subEntry id cur now sP :: attEntry id k prevT sP :: rest, dT, sP⟩ submissionsListPrefix
      = ⟨subEntry id cur now sP :: attEntry id k prevT sP ::
          rest.filter (fun p => !(submissionsListPrefix.isPrefixOf p.1)), dT, sP⟩ := by
    unfold CacheService.deletePrefixed
    dsimp only
    simp only [subEntry, attEntry]
    rw [List.filter_cons, List.filter_cons]
    simp [subKey_not_listPrefixed, attKey_not_listPrefixed]
  have h2 : lookupKey (monitorAttemptsKey id)
      (CacheService.mk (subEntry id cur now sP :: attEntry id k prevT sP ::
        rest.filter (fun p => !(submissionsListPrefix.isPrefixOf p.1))) dT sP).cache
      = some ⟨MVal.num k, prevT + 600000, some (prevT + 600000 + sP)⟩ := by
    dsimp only
    simp [subEntry, attEntry, lookupKey, subKey_ne_attKey id id]
  unfold checkSubmissions
  rw [if_neg (by simp : ¬ ([(id, last)] : List (Nat × String)).isEmpty = true)]
  dsimp only [List.foldl]
  unfold tickOne
  dsimp only
  rw [hf]
  dsimp only [Except.map]
  rw [hdel, getOrFetch_miss _ _ _ _ _ _ h1, hset]
  dsimp only [MVal.statusOf]
  rw [if_pos hne]
  dsimp only
  rw [hdp]
  rw [if_neg (by simp [hterm] : ¬ isTerminalStatus cur = true)]
  dsimp only
  rw [getMonitoringAttempts_fresh _ _ _ _ _ _ h2 (by omega)]
  dsimp only
  rw [if_neg (by omega : ¬ mx ≤ k)]
  dsimp only
  simp [applyStatusUpdates, List.lookup, CacheService.clear, CacheService.set]

/-- A terminal tick on an empty cache (the state a change tick leaves
behind): the status change notifies once and the id is removed at the
end of the tick. -/
theorem tick_terminal_emptyCache (id mx now dT sP : Nat) (last cur : String)
    (f : Nat → Except Unit String) (hf : f id = Except.ok cur)
    (hne : last ≠ cur)
    (hterm : isTerminalStatus cur = true) :
    checkSubmissions ⟨[(id, last)], ⟨[], dT, sP⟩, mx⟩ now f
      = (⟨[], ⟨[], dT, sP⟩, mx⟩, [(id, cur)], true) := by
  have hdel : CacheService.delete (⟨[], dT, sP⟩ : CacheService MVal) (submissionKey id)
      = ⟨[], dT, sP⟩ := rfl
  have h1 : lookupKey (submissionKey id)
      ((⟨[], dT, sP⟩ : CacheService MVal)).cache = none := rfl
  have hset : CacheService.set (⟨[], dT, sP⟩ : CacheService MVal) (submissionKey id)
        (MVal.sub cur) (some 5) now
      = ⟨[subEntry id cur now sP], dT, sP⟩ := by
    unfold CacheService.set
    simp [CacheService.resolveTTL, subEntry, eraseKey]
  have hdp : CacheService.deletePrefixed
        (⟨[subEntry id cur now sP], dT, sP⟩ : CacheService MVal) submissionsListPrefix
      = ⟨[subEntry id cur now sP], dT, sP⟩ := by
    unfold CacheService.deletePrefixed
    dsimp only
    simp only [subEntry]
    rw [List.filter_cons]
    simp [subKey_not_listPrefixed]
  have h2 : lookupKey (monitorAttemptsKey id)
      ((⟨[subEntry id cur now sP], dT, sP⟩ : CacheService MVal)).cache = none := by
    dsimp only
    simp [subEntry, lookupKey, subKey_ne_attKey id id]
  unfold checkSubmissions
  rw [if_neg (by simp : ¬ ([(id, last)] : List (Nat × String)).isEmpty = true)]
  dsimp only [List.foldl]
  unfold tickOne
  dsimp only
  rw [hf]
  dsimp only [Except.map]
  rw [hdel, getOrFetch_miss _ _ _ _ _ _ h1, hset]
  dsimp only [MVal.statusOf]
  rw [if_pos hne]
  dsimp only
  rw [hdp]
  rw [if_pos (by simp [hterm] : isTerminalStatus cur = true)]
  dsimp only
  rw [getMonitoringAttempts_miss _ _ _ h2]
  dsimp only
  by_cases hmx : mx ≤ 0
  · rw [if_pos hmx]
    simp [applyStatusUpdates, List.lookup, CacheService.clear, CacheService.set]
  · rw [if_neg hmx]
    simp [applyStatusUpdates, List.lookup, CacheService.clear, CacheService.set]

/-- Invariant of a no-change run: after k ticks (1 <= k <= maxAttempts)
the id is still tracked with its original status, no notification has
fired, and the cache holds the counter k and the re-fetched submission
entry from tick k on top of the untouched remainder. -/
theorem run_nochange_invariant (id mx : Nat) (s : String) (c : CacheService MVal)
    (t : Nat → Nat)
    (hterm : isTerminalStatus s = false)
    (hatt : lookupKey (monitorAttemptsKey id) c.cache = none)
    (hgap : ∀ i, t (i + 1) ≤ t i + 600000) :
    ∀ k, 1 ≤ k → k ≤ mx →
      runTicks ⟨[(id, s)], c, mx⟩ t (fun _ _ => Except.ok s) k
        = (⟨[(id, s)],
            ⟨attEntry id k (t (k - 1)) c.stalePeriod :: subEntry id s (t (k - 1)) c.stalePeriod ::
              eraseKey (monitorAttemptsKey id) (eraseKey (submissionKey id) c.cache),
              c.defaultTTL, c.stalePeriod⟩, mx⟩, []) := by
  intro k
  induction k with
  | zero => intro h1 _; omega
  | succ k ih =>
    intro _ hle
    cases Nat.eq_or_lt_of_le (Nat.one_le_iff_ne_zero.mpr (Nat.succ_ne_zero k)) with
    | inl h1 =>
      have hk0 : k = 0 := by omega
      subst hk0
      simp only [runTicks]
      rw [tick_nochange_attMiss id mx (t 0) s c (fun _ => Except.ok s) rfl hterm hatt]
      rw [if_neg (by omega : ¬ mx = 0)]
      rfl
    | inr h1 =>
      have hk1 : 1 ≤ k := by omega
      have hkm : k ≤ mx := by omega
      simp only [runTicks]
      rw [ih hk1 hkm]
      dsimp only
      rw [tick_nochange_attFresh id mx k (t k) (t (k - 1)) c.defaultTTL c.stalePeriod s
        (eraseKey (monitorAttemptsKey id) (eraseKey (submissionKey id) c.cache))
        (fun _ => Except.ok s) rfl hterm
        (by rw [lookupKey_eraseKey_ne _ _ _ (subKey_ne_attKey id id)]
            exact lookupKey_eraseKey_self _ _)
        (lookupKey_eraseKey_self _ _)
        (by have hsucc : k - 1 + 1 = k := by omega
            have hg := hgap (k - 1)
            rw [hsucc] at hg
            omega)]
      rw [if_neg (by omega : ¬ mx ≤ k)]
      have hk' : k + 1 - 1 = k := by omega
      rw [hk']
      rfl

/-- C6 (amended): a tracked submission whose re-fetched status never
changes from its recorded initial status (and is never terminal) stays
tracked through the first maxAttempts ticks, is removed by tick
maxAttempts + 1 (the counter read by `getMonitoringAttempts` is the
pre-increment value, so the ceiling test fires one tick later than the
claim states), and no status-change notification ever fires — provided
consecutive ticks are at most the counter's 10-minute TTL apart and no
stale counter predates the run. -/
theorem C6_timeout_amended (id mx : Nat) (s : String) (c : CacheService MVal)
    (t : Nat → Nat)
    (hterm : isTerminalStatus s = false)
    (hatt : lookupKey (monitorAttemptsKey id) c.cache = none)
    (hgap : ∀ i, t (i + 1) ≤ t i + 600000) :
    (∀ k, k ≤ mx →
      (runTicks ⟨[(id, s)], c, mx⟩ t (fun _ _ => Except.ok s) k).1.monitored = [(id, s)])
    ∧ (runTicks ⟨[(id, s)], c, mx⟩ t (fun _ _ => Except.ok s) (mx + 1)).1.monitored = []
    ∧ (runTicks ⟨[(id, s)], c, mx⟩ t (fun _ _ => Except.ok s) (mx + 1)).2 = [] := by
  refine ⟨?_, ?_⟩
  · intro k hk
    cases Nat.eq_zero_or_pos k with
    | inl h0 => subst h0; rfl
    | inr h1 =>
      rw [run_nochange_invariant id mx s c t hterm hatt hgap k h1 hk]
  · cases Nat.eq_zero_or_pos mx with
    | inl h0 =>
      subst h0
      constructor
      · simp only [runTicks]
        rw [tick_nochange_attMiss id 0 (t 0) s c (fun _ => Except.ok s) rfl hterm hatt]
        rw [if_pos rfl]
      · simp only [runTicks]
        rw [tick_nochange_attMiss id 0 (t 0) s c (fun _ => Except.ok s) rfl hterm hatt]
        rfl
    | inr h1 =>
      have hrun := run_nochange_invariant id mx s c t hterm hatt hgap mx h1 (le_refl mx)
      constructor
      · simp only [runTicks]
        rw [hrun]
        dsimp only
        rw [tick_nochange_attFresh id mx mx (t mx) (t (mx - 1)) c.defaultTTL c.stalePeriod s
          (eraseKey (monitorAttemptsKey id) (eraseKey (submissionKey id) c.cache))
          (fun _ => Except.ok s) rfl hterm
          (by rw [lookupKey_eraseKey_ne _ _ _ (subKey_ne_attKey id id)]
              exact lookupKey_eraseKey_self _ _)
          (lookupKey_eraseKey_self _ _)
          (by have hsucc : mx - 1 + 1 = mx := by omega
              have hg := hgap (mx - 1)
              rw [hsucc] at hg
              omega)]
        rw [if_pos (le_refl mx)]
      · simp only [runTicks]
        rw [hrun]
        dsimp only
        rw [tick_nochange_attFresh id mx mx (t mx) (t (mx - 1)) c.defaultTTL c.stalePeriod s
          (eraseKey (monitorAttemptsKey id) (eraseKey (submissionKey id) c.cache))
          (fun _ => Except.ok s) rfl hterm
          (by rw [lookupKey_eraseKey_ne _ _ _ (subKey_ne_attKey id id)]
              exact lookupKey_eraseKey_self _ _)
          (lookupKey_eraseKey_self _ _)
          (by have hsucc : mx - 1 + 1 = mx := by omega
              have hg := hgap (mx - 1)
              rw [hsucc] at hg
              omega)]
        rfl

/-- C6 counterexample: with `maxAttempts = 1` and a constant Queued
status, after exactly maxAttempts = 1 ticks the id is still tracked
(the claim says it is removed); it is removed only after 2 ticks. -/
theorem C6_timeout_cex :
    (runTicks ⟨[(7, "Queued")], CacheService.make MVal 15, 1⟩ (fun i => 3000 * i)
        (fun _ _ => Except.ok "Queued") 1).1.monitored = [(7, "Queued")]
    ∧ (runTicks ⟨[(7, "Queued")], CacheService.make MVal 15, 1⟩ (fun i => 3000 * i)
        (fun _ _ => Except.ok "Queued") 2).1.monitored = [] := by
  decide

/-- C6 witness: concrete run with maxAttempts = 2; still tracked after
2 ticks, gone after 3 ticks, no notification in the whole run. -/
theorem C6_timeout_amended_witness :
    (runTicks ⟨[(7, "Queued")], CacheService.make MVal 15, 2⟩ (fun i => 3000 * i)
        (fun _ _ => Except.ok "Queued") 2).1.monitored = [(7, "Queued")]
    ∧ (runTicks ⟨[(7, "Queued")], CacheService.make MVal 15, 2⟩ (fun i => 3000 * i)
        (fun _ _ => Except.ok "Queued") 3).1.monitored = []
    ∧ (runTicks ⟨[(7, "Queued")], CacheService.make MVal 15, 2⟩ (fun i => 3000 * i)
        (fun _ _ => Except.ok "Queued") 3).2 = [] :=
  ⟨(C6_timeout_amended 7 2 "Queued" (CacheService.make MVal 15) (fun i => 3000 * i)
      (by decide) (by decide) (fun i => (by omega : 3000 * (i + 1) ≤ 3000 * i + 600000))).1 2 (le_refl 2),
   (C6_timeout_amended 7 2 "Queued" (CacheService.make MVal 15) (fun i => 3000 * i)
      (by decide) (by decide) (fun i => (by omega : 3000 * (i + 1) ≤ 3000 * i + 600000))).2⟩

/-- C2: a single tracked submission whose re-fetched statuses over
three ticks are its recorded initial status q, then r (distinct,
non-terminal), then u (distinct from r, terminal — e.g. Accepted): it
is removed from the tracked set exactly at the end of the tick that
observes u, and exactly one notification fires per distinct status
transition — none on the tick that re-observes q, one for q -> r, one
for r -> u.  (Ceiling at least 2 so the timeout path does not
interfere; ticks at most the counter TTL apart; no stale counter.) -/
theorem C2_monitor_termination (id mx : Nat) (q r u : String) (c : CacheService MVal)
    (t : Nat → Nat) (f : Nat → Nat → Except Unit String)
    (hf0 : f 0 id = Except.ok q) (hf1 : f 1 id = Except.ok r) (hf2 : f 2 id = Except.ok u)
    (hqr : q ≠ r) (hru : r ≠ u)
    (htq : isTerminalStatus q = false) (htr : isTerminalStatus r = false)
    (htu : isTerminalStatus u = true)
    (hmx : 2 ≤ mx)
    (hatt : lookupKey (monitorAttemptsKey id) c.cache = none)
    (hgap : t 1 ≤ t 0 + 600000) :
    ((runTicks ⟨[(id, q)], c, mx⟩ t f 1).1.monitored = [(id, q)]
      ∧ (runTicks ⟨[(id, q)], c, mx⟩ t f 1).2 = [])
    ∧ ((runTicks ⟨[(id, q)], c, mx⟩ t f 2).1.monitored = [(id, r)]
      ∧ (runTicks ⟨[(id, q)], c, mx⟩ t f 2).2 = [(id, r)])
    ∧ ((runTicks ⟨[(id, q)], c, mx⟩ t f 3).1.monitored = []
      ∧ (runTicks ⟨[(id, q)], c, mx⟩ t f 3).2 = [(id, r), (id, u)]) := by
  have e1 : checkSubmissions ⟨[(id, q)], c, mx⟩ (t 0) (f 0)
      = (⟨[(id, q)],
          ⟨attEntry id 1 (t 0) c.stalePeriod :: subEntry id q (t 0) c.stalePeriod ::
            eraseKey (monitorAttemptsKey id) (eraseKey (submissionKey id) c.cache),
            c.defaultTTL, c.stalePeriod⟩, mx⟩, [], false) := by
    rw [tick_nochange_attMiss id mx (t 0) q c (f 0) hf0 htq hatt,
      if_neg (by omega : ¬ mx = 0)]
  have e2 : checkSubmissions
      ⟨[(id, q)],
        ⟨attEntry id 1 (t 0) c.stalePeriod :: subEntry id q (t 0) c.stalePeriod ::
          eraseKey (monitorAttemptsKey id) (eraseKey (submissionKey id) c.cache),
          c.defaultTTL, c.stalePeriod⟩, mx⟩ (t 1) (f 1)
      = (⟨[(id, r)], ⟨[], c.defaultTTL, c.stalePeriod⟩, mx⟩, [(id, r)], true) :=
    tick_change_attFresh id mx 1 (t 1) (t 0) c.defaultTTL c.stalePeriod q r
      (eraseKey (monitorAttemptsKey id) (eraseKey (submissionKey id) c.cache))
      (f 1) hf1 hqr htr
      (by rw [lookupKey_eraseKey_ne _ _ _ (subKey_ne_attKey id id)]
          exact lookupKey_eraseKey_self _ _)
      hgap (by omega)
  have e3 : checkSubmissions ⟨[(id, r)], ⟨[], c.defaultTTL, c.stalePeriod⟩, mx⟩ (t 2) (f 2)
      = (⟨[], ⟨[], c.defaultTTL, c.stalePeriod⟩, mx⟩, [(id, u)], true) :=
    tick_terminal_emptyCache id mx (t 2) c.defaultTTL c.stalePeriod r u (f 2) hf2 hru htu
  have r1 : runTicks ⟨[(id, q)], c, mx⟩ t f 1
      = (⟨[(id, q)],
          ⟨attEntry id 1 (t 0) c.stalePeriod :: subEntry id q (t 0) c.stalePeriod ::
            eraseKey (monitorAttemptsKey id) (eraseKey (submissionKey id) c.cache),
            c.defaultTTL, c.stalePeriod⟩, mx⟩, []) := by
    simp only [runTicks]
    rw [e1]
    rfl
  have r2 : runTicks ⟨[(id, q)], c, mx⟩ t f 2
      = (⟨[(id, r)], ⟨[], c.defaultTTL, c.stalePeriod⟩, mx⟩, [(id, r)]) := by
    simp only [runTicks]
    rw [e1]
    dsimp only
    rw [e2]
    rfl
  have r3 : runTicks ⟨[(id, q)], c, mx⟩ t f 3
      = (⟨[], ⟨[], c.defaultTTL, c.stalePeriod⟩, mx⟩, [(id, r), (id, u)]) := by
    simp only [runTicks]
    rw [e1]
    dsimp only
    rw [e2]
    dsimp only
    rw [e3]
    rfl
  rw [r1, r2, r3]
  exact ⟨⟨rfl, rfl⟩, ⟨rfl, rfl⟩, ⟨rfl, rfl⟩⟩

/-- C2 witness: a Queued, Running, Accepted run on a fresh monitor
with the default 3-second interval and 40-attempt ceiling. -/
theorem C2_monitor_termination_witness :
    ((runTicks ⟨[(7, "Queued")], CacheService.make MVal 15, 40⟩ (fun i => 3000 * i)
        (fun i _ => Except.ok (["Queued", "Running", "Accepted"].getD i "")) 1).1.monitored
        = [(7, "Queued")]
      ∧ (runTicks ⟨[(7, "Queued")], CacheService.make MVal 15, 40⟩ (fun i => 3000 * i)
        (fun i _ => Except.ok (["Queued", "Running", "Accepted"].getD i "")) 1).2 = [])
    ∧ ((runTicks ⟨[(7, "Queued")], CacheService.make MVal 15, 40⟩ (fun i => 3000 * i)
        (fun i _ => Except.ok (["Queued", "Running", "Accepted"].getD i "")) 2).1.monitored
        = [(7, "Running")]
      ∧ (runTicks ⟨[(7, "Queued")], CacheService.make MVal 15, 40⟩ (fun i => 3000 * i)
        (fun i _ => Except.ok (["Queued", "Running", "Accepted"].getD i "")) 2).2
        = [(7, "Running")])
    ∧ ((runTicks ⟨[(7, "Queued")], CacheService.make MVal 15, 40⟩ (fun i => 3000 * i)
        (fun i _ => Except.ok (["Queued", "Running", "Accepted"].getD i "")) 3).1.monitored
        = []
      ∧ (runTicks ⟨[(7, "Queued")], CacheService.make MVal 15, 40⟩ (fun i => 3000 * i)
        (fun i _ => Except.ok (["Queued", "Running", "Accepted"].getD i "")) 3).2
        = [(7, "Running"), (7, "Accepted")]) :=
  C2_monitor_termination 7 40 "Queued" "Running" "Accepted" (CacheService.make MVal 15)
    (fun i => 3000 * i) (fun i _ => Except.ok (["Queued", "Running", "Accepted"].getD i ""))
    rfl rfl rfl (by decide) (by decide) (by decide) (by decide) (by decide)
    (by omega) (by decide) (by decide)
